import Mathlib

/-!
Shallow embedding of the Gnosia game core (GameManager in the repository's
main script): role assignment, vote tallying, night-action resolution,
win-condition evaluation, host-gated state writes, and the reset flow.
Machine data (Firestore documents) is modelled as Lean lists and records;
timestamps are naturals; the random shuffle is an oracle parameter.
-/

namespace Gnosia

/-- Role identifiers, as in the settings' role map and player documents. -/
inductive Role where
  | citizen
  | impostor
  | engineer
  | doctor
  | fallen_angel
  | guard_duty
  | impostor_follower
  | bug
deriving DecidableEq, Repr

/-- A player document: `rooms/{code}/players/{id}`. -/
structure Player where
  id : String
  name : String
  isAlive : Bool
  role : Option Role
  roleReadConfirmed : Bool
deriving DecidableEq, Repr

/-- Possible winners returned by `checkWinCondition`. -/
inductive Winner where
  | impostor
  | citizen
  | bug
deriving DecidableEq, Repr

/-- The counting loop of `checkWinCondition`: for each living player,
increment `aliveImpostors` if the role is `impostor`, otherwise increment
`aliveCitizens` (note: the `else` branch counts every non-impostor,
including `bug`). -/
def countAlive (ps : List Player) : Nat × Nat :=
  ps.foldl
    (fun acc p =>
      if p.isAlive then
        if p.role = some Role.impostor then (acc.1 + 1, acc.2)
        else (acc.1, acc.2 + 1)
      else acc)
    (0, 0)

/-- `getAliveBug`: scans the roster and keeps the last living player whose
role is `bug` (null when none). -/
def getAliveBug (ps : List Player) : Option Player :=
  ps.foldl
    (fun bugAcc p =>
      if p.isAlive ∧ p.role = some Role.bug then some p else bugAcc)
    none

/-- `checkWinCondition`: impostor faction wins when living impostors are at
least the living others and positive; citizens win when no impostor lives;
a living bug preempts either winner; null keeps the game running. -/
def checkWinCondition (ps : List Player) : Option Winner :=
  let counts := countAlive ps
  let winner : Option Winner :=
    if counts.1 ≥ counts.2 ∧ counts.1 > 0 then some Winner.impostor
    else if counts.1 = 0 then some Winner.citizen
    else none
  match winner with
  | some w => if (getAliveBug ps).isSome then some Winner.bug else some w
  | none => none

/-- Living players whose role is exactly `impostor`. -/
def aliveImpostorCount (ps : List Player) : Nat :=
  (ps.filter (fun p => p.isAlive && decide (p.role = some Role.impostor))).length

/-- Living players with any role other than `impostor` (bug included). -/
def aliveOtherCount (ps : List Player) : Nat :=
  (ps.filter (fun p => p.isAlive && decide (p.role ≠ some Role.impostor))).length

/-- Whether some living player has role `bug`. -/
def hasAliveBug (ps : List Player) : Bool :=
  ps.any (fun p => p.isAlive && decide (p.role = some Role.bug))

/-- The win-condition evaluator exactly as the specification sentence for
C1 words it: citizen-aligned counts every living player other than
impostor **and other than bug**, and no bug override is mentioned. -/
def checkWinConditionClaimed (ps : List Player) : Option Winner :=
  let ai := aliveImpostorCount ps
  let ac := (ps.filter (fun p =>
    p.isAlive && decide (p.role ≠ some Role.impostor)
      && decide (p.role ≠ some Role.bug))).length
  if ai ≥ ac ∧ ai > 0 then some Winner.impostor
  else if ai = 0 then some Winner.citizen
  else none

/-- The GAME_PHASES constants of the phase engine. -/
inductive Phase where
  | LOBBY
  | ROLE_REVEAL
  | MEETING_DISCUSSION
  | VOTING
  | VOTE_RESULT
  | BREAK
  | NIGHT_SPECIAL
  | NIGHT_IMPOSTOR
  | MORNING_ANNOUNCEMENT
  | GAME_RESULT
deriving DecidableEq, Repr

/-- The string value of a phase constant, used to build transition ids. -/
def Phase.tag : Phase → String
  | .LOBBY => "LOBBY"
  | .ROLE_REVEAL => "ROLE_REVEAL"
  | .MEETING_DISCUSSION => "MEETING_DISCUSSION"
  | .VOTING => "VOTING"
  | .VOTE_RESULT => "VOTE_RESULT"
  | .BREAK => "BREAK"
  | .NIGHT_SPECIAL => "NIGHT_SPECIAL"
  | .NIGHT_IMPOSTOR => "NIGHT_IMPOSTOR"
  | .MORNING_ANNOUNCEMENT => "MORNING_ANNOUNCEMENT"
  | .GAME_RESULT => "GAME_RESULT"

/-- A vote document `rooms/{code}/votes/{voterId}` (one per voter). -/
structure Vote where
  voterId : String
  targetId : String
deriving DecidableEq, Repr

/-- One step of building the `voteCount` object:
`voteCount[targetId] = (voteCount[targetId] || 0) + 1`. An existing key is
bumped in place; a new key is appended (JS object insertion order). -/
def bumpCount : List (String × Nat) → String → List (String × Nat)
  | [], t => [(t, 1)]
  | (k, c) :: rest, t =>
    if k = t then (k, c + 1) :: rest else (k, c) :: bumpCount rest t

/-- The per-target tally built by the first loop of `processVotes`. -/
def voteCount (votes : List Vote) : List (String × Nat) :=
  votes.foldl (fun acc v => bumpCount acc v.targetId) []

/-- The plurality loop of `processVotes` over `Object.entries(voteCount)`:
a strictly larger count resets `targets`, an equal count appends. -/
def plurality (entries : List (String × Nat)) : Nat × List String :=
  entries.foldl
    (fun acc e =>
      if e.2 > acc.1 then (e.2, [e.1])
      else if e.2 = acc.1 then (acc.1, acc.2 ++ [e.1])
      else acc)
    (0, [])

/-- Outcome reported by the vote tally: a tie over the listed targets,
or a kill of `targets[0]` (`none` models the out-of-bounds read
`targets[0]` on an empty list). -/
inductive VoteOutcome where
  | tie (targets : List String)
  | killed (victimId : Option String)
deriving DecidableEq, Repr

/-- The tally-and-branch part of `processVotes`: tie when more than one
target holds the maximum, otherwise the kill path on `targets[0]`. -/
def processVotesTally (votes : List Vote) : VoteOutcome :=
  let vc := voteCount votes
  let mt := plurality vc
  if mt.2.length > 1 then VoteOutcome.tie mt.2
  else VoteOutcome.killed mt.2.head?

/-- The target ids of a vote list, in document order. -/
def voteTargets (votes : List Vote) : List String :=
  votes.map Vote.targetId

/-- First-occurrence deduplication (the key order of a JS object built by
repeated insertion). -/
def firstOccur (ts : List String) : List String :=
  ts.foldl (fun acc t => if t ∈ acc then acc else acc ++ [t]) []

/-- Number of votes cast for target `t`. -/
def countFor (votes : List Vote) (t : String) : Nat :=
  (voteTargets votes).count t

/-- Running maximum of a list of naturals. -/
def maxNatList (l : List Nat) : Nat :=
  l.foldl max 0

/-- The maximum per-target vote count (the plurality count). -/
def maxVoteCount (votes : List Vote) : Nat :=
  maxNatList ((firstOccur (voteTargets votes)).map (countFor votes))

/-- All target ids achieving the plurality count, in first-vote order. -/
def pluralityTargets (votes : List Vote) : List String :=
  (firstOccur (voteTargets votes)).filter
    (fun t => decide (countFor votes t = maxVoteCount votes))

/-- The maximum of the counts stored in a tally association list. -/
def maxEntryVal (entries : List (String × Nat)) : Nat :=
  maxNatList (entries.map Prod.snd)

/-- First lookup of a key in a tally association list, defaulting to 0
(the read `voteCount[targetId] || 0`). -/
def cntOf : List (String × Nat) → String → Nat
  | [], _ => 0
  | e :: rest, k => if e.1 = k then e.2 else cntOf rest k

/-- The expansion loop of `assignRoles`: for each `[role, count]` entry of
the settings' role map, push `role` `count` times. -/
def expandRoles (roleSettings : List (Role × Nat)) : List Role :=
  roleSettings.foldl (fun acc rc => acc ++ List.replicate rc.2 rc.1) []

/-- `assignRoles(playerCount, roleSettings)`: expand the configured
counts, pad with `citizen` while shorter than the player count, then
`slice(0, playerCount)`. -/
def assignRoles (playerCount : Nat) (roleSettings : List (Role × Nat)) : List Role :=
  let roles := expandRoles roleSettings
  let padded := roles ++ List.replicate (playerCount - roles.length) Role.citizen
  padded.take playerCount

/-- Total number of configured roles. -/
def sumRoleCounts (roleSettings : List (Role × Nat)) : Nat :=
  (roleSettings.map Prod.snd).sum

/-- A night-action document `rooms/{code}/nightActions/{actorId}`: the
acting role as `type`, a target, and the submission timestamp in
milliseconds. -/
structure NightAction where
  actorId : String
  type : Role
  targetId : String
  submittedAt : Nat
deriving DecidableEq, Repr

/-- Death causes recorded in the death log. -/
inductive Cause where
  | vote
  | impostor
  | bug_death
deriving DecidableEq, Repr

/-- An entry of the `victims` list built by `processMorning`. -/
structure VictimEntry where
  id : String
  cause : Cause
deriving DecidableEq, Repr

/-- Lookup in the `players` map keyed by document id. -/
def findPlayer (ps : List Player) (pid : String) : Option Player :=
  ps.find? (fun p => decide (p.id = pid))

/-- The engineer-kill test of `processMorning` step 1: the action has
type `engineer` and its target exists, is alive, and has role `bug`
(the JS check `target && target.isAlive && target.role === 'bug'`). -/
def engHit (ps : List Player) (a : NightAction) : Bool :=
  decide (a.type = Role.engineer) &&
    (match findPlayer ps a.targetId with
     | some t => t.isAlive && decide (t.role = some Role.bug)
     | none => false)

/-- Step 1 of `processMorning`: each engineer action whose target is a
living bug pushes a `bug_death` victim. -/
def engineerVictims (acts : List NightAction) (ps : List Player) : List VictimEntry :=
  acts.foldl
    (fun vs a =>
      if engHit ps a then vs ++ [⟨a.targetId, Cause.bug_death⟩] else vs)
    []

/-- Step 2 of `processMorning`: scan the impostor-type actions keeping
`(earliestTime, impostorTargetId)`. The JS guard is
`!earliestTime || submittedAt < earliestTime`, so a stored time of 0 is
falsy and is overwritten by any later impostor action. -/
def impostorTargetSel (acts : List NightAction) : Option (Nat × String) :=
  acts.foldl
    (fun acc a =>
      if a.type = Role.impostor then
        match acc with
        | none => some (a.submittedAt, a.targetId)
        | some (t, tgt) =>
          if t = 0 ∨ a.submittedAt < t then some (a.submittedAt, a.targetId)
          else some (t, tgt)
      else acc)
    none

/-- The binding impostor target chosen by `processMorning`. -/
def impostorTargetId (acts : List NightAction) : Option String :=
  (impostorTargetSel acts).map Prod.snd

/-- Whether some fallen-angel action targets `tid` (protection check). -/
def protectedBy (acts : List NightAction) (tid : String) : Bool :=
  acts.any (fun a => decide (a.type = Role.fallen_angel) && decide (a.targetId = tid))

/-- Steps 1–3 of `processMorning`: engineer victims first, then the
binding impostor target is added with cause `impostor` when it is alive,
not already a victim, not protected, and not a bug. -/
def computeVictims (acts : List NightAction) (ps : List Player) : List VictimEntry :=
  let victims := engineerVictims acts ps
  match impostorTargetId acts with
  | none => victims
  | some tid =>
    match findPlayer ps tid with
    | none => victims
    | some target =>
      if target.isAlive = true ∧ (victims.find? (fun v => decide (v.id = tid))).isNone then
        if protectedBy acts tid = true then victims
        else if target.role = some Role.bug then victims
        else victims ++ [⟨tid, Cause.impostor⟩]
      else victims

/-- The impostor-type actions, in document order. -/
def impostorActs (acts : List NightAction) : List NightAction :=
  acts.filter (fun a => decide (a.type = Role.impostor))

/-- Minimum of a list of naturals, `none` on the empty list. -/
def minTime? (l : List Nat) : Option Nat :=
  l.foldl
    (fun acc t =>
      match acc with
      | none => some t
      | some m => some (min m t))
    none

/-- The earliest submission time together with the target of the first
impostor action achieving it (the specification's first-submit-wins
selection, as a pair). -/
def earliestImpostorSel (acts : List NightAction) : Option (Nat × String) :=
  match minTime? ((impostorActs acts).map NightAction.submittedAt) with
  | none => none
  | some m =>
    ((impostorActs acts).find? (fun a => decide (a.submittedAt = m))).map
      (fun a => (m, a.targetId))

/-- The target of the first impostor action achieving the earliest
`submittedAt` (the specification's first-submit-wins selection). -/
def earliestImpostorTarget (acts : List NightAction) : Option String :=
  match minTime? ((impostorActs acts).map NightAction.submittedAt) with
  | none => none
  | some m =>
    ((impostorActs acts).find? (fun a => decide (a.submittedAt = m))).map
      NightAction.targetId

/-- Step 1 of the night-resolution specification as a filter-and-map:
exactly the engineer actions on living bugs, in action order. -/
def engineerVictimsSpec (acts : List NightAction) (ps : List Player) : List VictimEntry :=
  (acts.filter (engHit ps)).map (fun a => ⟨a.targetId, Cause.bug_death⟩)

/-- Step 3 of the night-resolution specification: at most one `impostor`
victim, present exactly when the earliest-submission target is alive, not
an engineer victim, unprotected, and not a bug. -/
def impostorVictimSpec (acts : List NightAction) (ps : List Player) : List VictimEntry :=
  match earliestImpostorTarget acts with
  | none => []
  | some tid =>
    match findPlayer ps tid with
    | none => []
    | some target =>
      if target.isAlive = true ∧ (∀ v ∈ engineerVictimsSpec acts ps, v.id ≠ tid)
          ∧ protectedBy acts tid = false ∧ target.role ≠ some Role.bug then
        [⟨tid, Cause.impostor⟩]
      else []

/-- The authoritative `gameState/current` document. Phase-specific payload
fields are optional and survive merges until overwritten. -/
structure GameState where
  phase : Phase
  version : Nat
  transitionId : String
  updatedAt : Nat
  hostUid : String
  result : Option String
  tiedPlayers : Option (List String)
  voteCounts : Option (List (String × Nat))
  victimId : Option String
  victimName : Option String
  winner : Option Winner
  victims : Option (List String)
deriving DecidableEq, Repr

/-- The `additionalData` object spread into a `setState` write; absent
fields are left untouched by the merge. -/
structure StatePayload where
  result : Option String := none
  tiedPlayers : Option (List String) := none
  voteCounts : Option (List (String × Nat)) := none
  victimId : Option String := none
  victimName : Option String := none
  winner : Option Winner := none
  victims : Option (List String) := none
deriving DecidableEq, Repr

/-- Merge one payload field over the stored field (`setDoc` with
`merge: true`): a present field overwrites, an absent field keeps. -/
def mergeOpt {α : Type} (new old : Option α) : Option α :=
  match new with
  | some x => some x
  | none => old

/-- `setState(phase, additionalData)`: host-gated merge write of the new
phase, an incremented version, a fresh transition id, and the payload. -/
def setState (isHost : Bool) (selfId : String) (now : Nat) (phase : Phase)
    (payload : StatePayload) (st : GameState) : GameState :=
  if isHost then
    { phase := phase
      version := st.version + 1
      transitionId := Phase.tag phase ++ "_" ++ toString now
      updatedAt := now
      hostUid := selfId
      result := mergeOpt payload.result st.result
      tiedPlayers := mergeOpt payload.tiedPlayers st.tiedPlayers
      voteCounts := mergeOpt payload.voteCounts st.voteCounts
      victimId := mergeOpt payload.victimId st.victimId
      victimName := mergeOpt payload.victimName st.victimName
      winner := mergeOpt payload.winner st.winner
      victims := mergeOpt payload.victims st.victims }
  else st

/-- One queued `setState` call: target phase, payload, and wall clock. -/
structure StateCall where
  phase : Phase
  payload : StatePayload
  now : Nat

/-- The version stamped by each successive host `setState` call. -/
def writtenVersions (selfId : String) (calls : List StateCall)
    (st : GameState) : List Nat :=
  match calls with
  | [] => []
  | c :: rest =>
    let st' := setState true selfId c.now c.phase c.payload st
    st'.version :: writtenVersions selfId rest st'

/-- Room status values. -/
inductive RoomStatus where
  | lobby
  | ingame
  | closed
deriving DecidableEq, Repr

/-- The room metadata document. -/
structure RoomDoc where
  day : Nat
  status : RoomStatus
deriving DecidableEq, Repr

/-- The ephemeral countdown record `timers/{roomCode}`. -/
structure TimerDoc where
  remaining : Nat
  phase : String
deriving DecidableEq, Repr

/-- The `settings/main` document: role counts and phase timers. -/
structure Settings where
  roles : List (Role × Nat)
  meetingTime : Nat
  voteTime : Nat
  breakTime : Nat
deriving DecidableEq, Repr

/-- A partial settings update (`updateDoc` merges present fields). -/
structure SettingsPatch where
  roles : Option (List (Role × Nat)) := none
  meetingTime : Option Nat := none
  voteTime : Option Nat := none
  breakTime : Option Nat := none
deriving DecidableEq, Repr

/-- An archived vote in `voteHistory`. -/
structure HistEntry where
  day : Nat
  voterId : String
  targetId : String
deriving DecidableEq, Repr

/-- A death-log document `rooms/{code}/deathLog/{victimId}`. -/
structure DeathEntry where
  victimId : String
  cause : Cause
  day : Nat
  role : Option Role
deriving DecidableEq, Repr

/-- The per-room persistent state: room metadata, all collections, the
authoritative game state, and the ephemeral timer and presence keys. -/
structure World where
  room : RoomDoc
  players : List Player
  settings : Settings
  gameState : GameState
  votes : List Vote
  nightActions : List NightAction
  deathLog : List DeathEntry
  voteHistory : List HistEntry
  timer : Option TimerDoc
  presence : List String
deriving DecidableEq, Repr

/-- `setDoc` on the death-log document keyed by victim id: overwrite an
existing entry, otherwise append. -/
def upsertDeath (log : List DeathEntry) (e : DeathEntry) : List DeathEntry :=
  if log.any (fun d => decide (d.victimId = e.victimId)) then
    log.map (fun d => if d.victimId = e.victimId then e else d)
  else log ++ [e]

/-- World-level `setState`: only the authoritative record changes. -/
def setStateW (isHost : Bool) (selfId : String) (now : Nat) (phase : Phase)
    (payload : StatePayload) (w : World) : World :=
  { w with gameState := setState isHost selfId now phase payload w.gameState }

/-- `processVotes`: host-gated tally; a tie writes the tied ids, otherwise
the votes are archived and `targets[0]` is killed and logged (a missing
player document still advances with a placeholder name; an empty targets
list makes the JS dereference of `targets[0]` throw before any write past
the archive, modelled as stopping there). -/
def processVotesW (isHost : Bool) (selfId : String) (now : Nat) (w : World) : World :=
  if isHost = false then w
  else
    let vc := voteCount w.votes
    let mt := plurality vc
    if mt.2.length > 1 then
      setStateW true selfId now Phase.VOTE_RESULT
        { result := some "tie", tiedPlayers := some mt.2, voteCounts := some vc } w
    else
      let hist : List HistEntry :=
        w.votes.map (fun v => ⟨w.room.day, v.voterId, v.targetId⟩)
      let archived := { w with voteHistory := w.voteHistory ++ hist }
      match mt.2.head? with
      | none => archived
      | some victimId =>
        match findPlayer w.players victimId with
        | none =>
          setStateW true selfId now Phase.VOTE_RESULT
            { result := some "killed", victimId := some victimId,
              victimName := some "Unknown (Left)" } archived
        | some pdata =>
          let players' := archived.players.map
            (fun p => if p.id = victimId then { p with isAlive := false } else p)
          let w1 := { archived with players := players' }
          let dl := upsertDeath w1.deathLog ⟨victimId, Cause.vote, w.room.day, pdata.role⟩
          let w2 := { w1 with deathLog := dl }
          setStateW true selfId now Phase.VOTE_RESULT
            { result := some "killed", victimId := some victimId,
              victimName := some pdata.name, voteCounts := some vc } w2

/-- `checkAllVoted`: all-voted when the vote count reaches the living
player count; a host then runs `processVotes` with no phase guard. -/
def checkAllVotedW (isHost : Bool) (selfId : String) (now : Nat) (w : World) :
    World × Bool :=
  let alivePlayers := w.players.filter (fun p => p.isAlive)
  let allVoted := w.votes.length ≥ alivePlayers.length
  if allVoted ∧ isHost = true then (processVotesW isHost selfId now w, allVoted)
  else (w, allVoted)

/-- The ids of living players holding a special night role (engineer,
doctor, fallen angel). -/
def edPlayerIds (w : World) : List String :=
  (w.players.filter (fun p =>
    p.isAlive && (decide (p.role = some Role.engineer)
      || decide (p.role = some Role.doctor)
      || decide (p.role = some Role.fallen_angel)))).map Player.id

/-- Whether the count of night actions submitted by special-role players
reaches the count of living special-role players. -/
def edAllSubmitted (w : World) : Bool :=
  decide ((w.nightActions.filter
    (fun a => decide (a.actorId ∈ edPlayerIds w))).length ≥ (edPlayerIds w).length)

/-- Whether some night action has type `impostor`. -/
def impSubmitted (w : World) : Bool :=
  w.nightActions.any (fun a => decide (a.type = Role.impostor))

/-- `checkEDSubmitted`: once every living engineer, doctor, and fallen
angel has an action, the host advances NIGHT_SPECIAL → NIGHT_IMPOSTOR,
guarded by re-reading the current phase. -/
def checkEDSubmittedW (isHost : Bool) (selfId : String) (now : Nat) (w : World) :
    World × Bool :=
  let allSubmitted := edAllSubmitted w
  if allSubmitted = true ∧ isHost = true then
    if w.gameState.phase = Phase.NIGHT_SPECIAL then
      (setStateW true selfId now Phase.NIGHT_IMPOSTOR {} w, allSubmitted)
    else (w, allSubmitted)
  else (w, allSubmitted)

/-- `processMorning`: compute the night's victims, apply deaths and death
log entries, bump the day, and announce. -/
def processMorningW (isHost : Bool) (selfId : String) (now : Nat) (w : World) : World :=
  if isHost = false then w
  else
    let victims := computeVictims w.nightActions w.players
    let day := w.room.day
    let players' := w.players.map (fun p =>
      if victims.any (fun v => decide (v.id = p.id)) then { p with isAlive := false }
      else p)
    let deathLog' := victims.foldl (fun log v =>
      upsertDeath log ⟨v.id, v.cause, day, (findPlayer w.players v.id).bind Player.role⟩)
      w.deathLog
    let room' := { w.room with day := day + 1 }
    let w1 := { w with players := players', deathLog := deathLog', room := room' }
    setStateW true selfId now Phase.MORNING_ANNOUNCEMENT
      { victims := some (victims.map VictimEntry.id) } w1

/-- `checkImpostorSubmitted`: once an impostor-type action exists, the
host resolves the night, guarded by re-reading the current phase. -/
def checkImpostorSubmittedW (isHost : Bool) (selfId : String) (now : Nat)
    (w : World) : World × Bool :=
  let impostorSubmitted := impSubmitted w
  if impostorSubmitted = true ∧ isHost = true then
    if w.gameState.phase = Phase.NIGHT_IMPOSTOR then
      (processMorningW true selfId now w, impostorSubmitted)
    else (w, impostorSubmitted)
  else (w, impostorSubmitted)

/-- `resetGameState`: host-gated full reset of players, collections, room
metadata, timer, and a wholesale overwrite of the authoritative record. -/
def resetGameStateW (isHost : Bool) (selfId : String) (now : Nat) (w : World) : World :=
  if isHost = false then w
  else
    { room := { day := 1, status := RoomStatus.lobby }
      players := w.players.map (fun p =>
        { p with isAlive := true, role := none, roleReadConfirmed := false })
      settings := w.settings
      gameState :=
        { phase := Phase.LOBBY
          version := 0
          transitionId := "RESET_" ++ toString now
          updatedAt := now
          hostUid := selfId
          result := none
          tiedPlayers := none
          voteCounts := none
          victimId := none
          victimName := none
          winner := none
          victims := none }
      votes := []
      nightActions := []
      deathLog := []
      voteHistory := []
      timer := none
      presence := w.presence }

/-- `startGame`: host-gated role deal (the Fisher–Yates shuffle is an
oracle argument standing for `Math.random`), room status to ingame, then
ROLE_REVEAL. -/
def startGameW (isHost : Bool) (selfId : String) (now : Nat)
    (shuffle : List Role → List Role) (w : World) : World :=
  if isHost = false then w
  else
    let shuffled := shuffle (assignRoles w.players.length w.settings.roles)
    let players' := w.players.zipWith
      (fun p r => { p with role := some r, roleReadConfirmed := false }) shuffled
    let room' := { w.room with status := RoomStatus.ingame }
    let w1 := { w with players := players', room := room' }
    setStateW true selfId now Phase.ROLE_REVEAL {} w1

/-- `updateSettings`: host-gated partial update of the settings doc. -/
def updateSettingsW (isHost : Bool) (patch : SettingsPatch) (w : World) : World :=
  if isHost = false then w
  else
    { w with settings :=
      { roles := (mergeOpt patch.roles (some w.settings.roles)).getD []
        meetingTime := (mergeOpt patch.meetingTime (some w.settings.meetingTime)).getD 0
        voteTime := (mergeOpt patch.voteTime (some w.settings.voteTime)).getD 0
        breakTime := (mergeOpt patch.breakTime (some w.settings.breakTime)).getD 0 } }

/-- `kickPlayer`: host-gated delete of the player doc and presence key. -/
def kickPlayerW (isHost : Bool) (pid : String) (w : World) : World :=
  if isHost = false then w
  else
    { w with players := w.players.filter (fun p => !(decide (p.id = pid)))
             presence := w.presence.filter (fun q => !(decide (q = pid))) }

/-- `startVotingTimer`: host-gated vote clear plus countdown write. -/
def startVotingTimerW (isHost : Bool) (w : World) : World :=
  if isHost = false then w
  else { w with votes := [], timer := some ⟨w.settings.voteTime, "voting"⟩ }

/-- `startBreakTimer`: host-gated countdown write for the break. -/
def startBreakTimerW (isHost : Bool) (w : World) : World :=
  if isHost = false then w
  else { w with timer := some ⟨w.settings.breakTime, "break"⟩ }

/-- `transitionToVoting`: host-gated VOTING write, then the vote timer. -/
def transitionToVotingW (isHost : Bool) (selfId : String) (now : Nat) (w : World) : World :=
  if isHost = false then w
  else startVotingTimerW true (setStateW true selfId now Phase.VOTING {} w)

/-- `transitionToBreak`: host-gated BREAK write, then the break timer. -/
def transitionToBreakW (isHost : Bool) (selfId : String) (now : Nat) (w : World) : World :=
  if isHost = false then w
  else startBreakTimerW true (setStateW true selfId now Phase.BREAK {} w)

/-- `transitionToNight`: host-gated night-action clear, then NIGHT_SPECIAL. -/
def transitionToNightW (isHost : Bool) (selfId : String) (now : Nat) (w : World) : World :=
  if isHost = false then w
  else setStateW true selfId now Phase.NIGHT_SPECIAL { } { w with nightActions := [] }

/-- A roster with one living impostor, one living bug, and one living
citizen (used to separate the code's citizen counting from the claimed
one). -/
def cexRoster : List Player :=
  [⟨"P1", "Ann", true, some Role.impostor, true⟩,
   ⟨"P2", "Bo", true, some Role.bug, true⟩,
   ⟨"P3", "Cy", true, some Role.citizen, true⟩]

/-- A roster with one living impostor and one living bug only. -/
def bugRoster : List Player :=
  [⟨"P1", "Ann", true, some Role.impostor, true⟩,
   ⟨"P2", "Bo", true, some Role.bug, true⟩]

/-- Concrete vote sets from the specification's tally examples. -/
def votesTied : List Vote :=
  [⟨"v1", "A"⟩, ⟨"v2", "A"⟩, ⟨"v3", "B"⟩, ⟨"v4", "B"⟩, ⟨"v5", "C"⟩]

/-- Concrete vote set with a unique plurality target. -/
def votesClear : List Vote :=
  [⟨"v1", "A"⟩, ⟨"v2", "A"⟩, ⟨"v3", "A"⟩, ⟨"v4", "B"⟩]

/-- A mid-game world used to exercise the reset round trip. -/
def sampleWorld : World :=
  { room := ⟨3, RoomStatus.ingame⟩
    players := [⟨"P1", "Ann", true, some Role.impostor, true⟩,
                ⟨"P2", "Bo", false, some Role.citizen, true⟩]
    settings := ⟨[(Role.impostor, 1), (Role.citizen, 1)], 60, 30, 20⟩
    gameState := ⟨Phase.BREAK, 12, "BREAK_9", 9, "P1", some "killed", none,
      none, some "P2", some "Bo", none, some ["P2"]⟩
    votes := [⟨"P1", "P2"⟩]
    nightActions := [⟨"P1", Role.impostor, "P2", 7⟩]
    deathLog := [⟨"P2", Cause.vote, 2, some Role.citizen⟩]
    voteHistory := [⟨2, "P1", "P2"⟩]
    timer := some ⟨10, "break"⟩
    presence := ["P1", "P2"] }

/-- A voting-phase world with a single living player who has voted
(used to run the all-voted check twice in a row). -/
def cexVoteWorld : World :=
  { room := ⟨1, RoomStatus.ingame⟩
    players := [⟨"P", "Pat", true, some Role.citizen, true⟩]
    settings := ⟨[(Role.citizen, 1)], 60, 30, 20⟩
    gameState := ⟨Phase.VOTING, 7, "VOTING_5", 5, "P", none, none, none,
      none, none, none, none⟩
    votes := [⟨"P", "P"⟩]
    nightActions := []
    deathLog := []
    voteHistory := []
    timer := none
    presence := ["P"] }

/-- Two impostor actions where the earlier submission carries the
timestamp 0 (used against the falsy earliest-time guard). -/
def cexNightActs : List NightAction :=
  [⟨"I1", Role.impostor, "A", 0⟩, ⟨"I2", Role.impostor, "B", 5⟩]

/-- Two living citizens targeted by the actions of `cexNightActs`. -/
def cexNightRoster : List Player :=
  [⟨"A", "Ada", true, some Role.citizen, true⟩,
   ⟨"B", "Ben", true, some Role.citizen, true⟩]

/-- A night with an engineer hit on a living bug and an impostor kill of
a living citizen, all timestamps positive. -/
def goodNightActs : List NightAction :=
  [⟨"E", Role.engineer, "B", 10⟩, ⟨"I", Role.impostor, "C", 12⟩]

/-- The roster for `goodNightActs`. -/
def goodNightRoster : List Player :=
  [⟨"B", "Bug", true, some Role.bug, true⟩,
   ⟨"C", "Cit", true, some Role.citizen, true⟩,
   ⟨"E", "Eng", true, some Role.engineer, true⟩,
   ⟨"I", "Imp", true, some Role.impostor, true⟩]

lemma countAlive_foldl (ps : List Player) (a b : Nat) :
    ps.foldl
      (fun acc p =>
        if p.isAlive then
          if p.role = some Role.impostor then (acc.1 + 1, acc.2)
          else (acc.1, acc.2 + 1)
        else acc)
      (a, b)
    = (a + aliveImpostorCount ps, b + aliveOtherCount ps) := by
  induction ps generalizing a b with
  | nil => simp [aliveImpostorCount, aliveOtherCount]
  | cons p ps ih =>
    simp only [List.foldl_cons, aliveImpostorCount, aliveOtherCount,
      List.filter_cons]
    by_cases hAlive : p.isAlive = true
    · by_cases hImp : p.role = some Role.impostor
      · simp [hAlive, hImp, ih, aliveImpostorCount, aliveOtherCount,
          Nat.add_comm, Nat.add_assoc, Nat.add_left_comm]
      · simp [hAlive, hImp, ih, aliveImpostorCount, aliveOtherCount,
          Nat.add_comm, Nat.add_assoc, Nat.add_left_comm]
    · simp [hAlive, ih, aliveImpostorCount, aliveOtherCount]

lemma countAlive_eq (ps : List Player) :
    countAlive ps = (aliveImpostorCount ps, aliveOtherCount ps) := by
  simpa using countAlive_foldl ps 0 0

lemma getAliveBug_foldl (ps : List Player) (acc : Option Player) :
    (ps.foldl
      (fun bugAcc p =>
        if p.isAlive ∧ p.role = some Role.bug then some p else bugAcc)
      acc).isSome
    = (acc.isSome || ps.any (fun p => p.isAlive && decide (p.role = some Role.bug))) := by
  induction ps generalizing acc with
  | nil => simp
  | cons p ps ih =>
    simp only [List.foldl_cons, List.any_cons]
    by_cases h : p.isAlive = true ∧ p.role = some Role.bug
    · simp [h, ih, h.1, h.2]
    · have : ¬(p.isAlive = true ∧ p.role = some Role.bug) := h
      by_cases hA : p.isAlive = true
      · have hR : ¬ p.role = some Role.bug := fun hr => h ⟨hA, hr⟩
        simp [hA, hR, ih]
      · simp [hA, ih, Bool.eq_false_iff.mpr hA]

lemma getAliveBug_isSome (ps : List Player) :
    (getAliveBug ps).isSome = hasAliveBug ps := by
  simpa [getAliveBug, hasAliveBug] using getAliveBug_foldl ps none

/-- Shared characterization of `checkWinCondition` in terms of the filter
counts: the `aliveCitizens` counter of the code counts every living
non-impostor, bug included, and a living bug overrides either winner. -/
lemma checkWinCondition_eq (ps : List Player) :
    checkWinCondition ps =
      (if aliveImpostorCount ps ≥ aliveOtherCount ps ∧ aliveImpostorCount ps > 0 then
        (if hasAliveBug ps then some Winner.bug else some Winner.impostor)
      else if aliveImpostorCount ps = 0 then
        (if hasAliveBug ps then some Winner.bug else some Winner.citizen)
      else none) := by
  unfold checkWinCondition
  rw [countAlive_eq]
  by_cases h1 : aliveImpostorCount ps ≥ aliveOtherCount ps ∧ aliveImpostorCount ps > 0
  · cases hb : hasAliveBug ps with
    | true => simp [h1, getAliveBug_isSome, hb]
    | false => simp [h1, getAliveBug_isSome, hb]
  · by_cases h2 : aliveImpostorCount ps = 0
    · cases hb : hasAliveBug ps with
      | true => simp [h1, h2, getAliveBug_isSome, hb]
      | false => simp [h1, h2, getAliveBug_isSome, hb]
    · simp [h1, h2]

/-- C1 counterexample: on a roster with one living impostor, one living
bug, and one living citizen, the claim's counting (citizen-aligned
excludes `bug`) makes the impostor condition hold, so the claim predicts
`impostor`; the code counts the bug among `aliveCitizens` (1 ≥ 2 fails)
and returns `null`, keeping the game running. -/
theorem claim1_counterexample :
    checkWinCondition cexRoster = none ∧
    checkWinConditionClaimed cexRoster = some Winner.impostor := by
  constructor <;> rfl

/-- C1 (amended): `checkWinCondition` counts living impostor-role players
against every other living player **including bug**; the impostor
condition (impostors ≥ others and impostors > 0) or the citizen condition
(impostors = 0) yields `impostor` resp. `citizen` unless a living bug
exists, in which case the winner is `bug`; when neither numeric condition
holds the result is `null` and the game keeps running. -/
theorem claim1_winCondition :
    ∀ ps : List Player,
      checkWinCondition ps =
        (if aliveImpostorCount ps ≥ aliveOtherCount ps ∧ aliveImpostorCount ps > 0 then
          (if hasAliveBug ps then some Winner.bug else some Winner.impostor)
        else if aliveImpostorCount ps = 0 then
          (if hasAliveBug ps then some Winner.bug else some Winner.citizen)
        else none) :=
  checkWinCondition_eq

/-- C2: whenever one of the evaluator's two numeric win conditions holds
(on its own counts, bug included among the living others) and a living
bug exists, `checkWinCondition` returns `bug`, preempting the faction
that satisfied the condition. -/
theorem claim2_bugPreemption (ps : List Player)
    (hcond : (aliveImpostorCount ps ≥ aliveOtherCount ps ∧ aliveImpostorCount ps > 0)
      ∨ aliveImpostorCount ps = 0)
    (hbug : hasAliveBug ps = true) :
    checkWinCondition ps = some Winner.bug := by
  rw [checkWinCondition_eq]
  rcases hcond with h | h
  · simp [h, hbug]
  · by_cases h1 : aliveImpostorCount ps ≥ aliveOtherCount ps ∧ aliveImpostorCount ps > 0
    · simp [h1, hbug]
    · simp [h1, h, hbug]

/-- C2 witness: with 1 living impostor and 1 living bug the impostor
condition holds numerically (1 ≥ 1) and the evaluator returns `bug`. -/
theorem claim2_witness :
    ((aliveImpostorCount bugRoster ≥ aliveOtherCount bugRoster
        ∧ aliveImpostorCount bugRoster > 0)
      ∨ aliveImpostorCount bugRoster = 0) ∧
    hasAliveBug bugRoster = true ∧
    checkWinCondition bugRoster = some Winner.bug :=
  ⟨by decide, by decide, claim2_bugPreemption bugRoster (by decide) (by decide)⟩

/-- C10: with no votes, the tally is empty, the plurality loop leaves
`maxVotes = 0` and `targets = []`, the tie branch (`length > 1`) is not
taken, and the kill path reads `targets[0]` of an empty list (modelled as
`none`): no branch of the tally guards the empty-vote case. -/
theorem claim10_emptyVotes :
    voteCount ([] : List Vote) = [] ∧
    plurality (voteCount ([] : List Vote)) = (0, []) ∧
    processVotesTally [] = VoteOutcome.killed none := by
  exact ⟨rfl, rfl, rfl⟩

/-- C8: every host-only mutating operation returns its input world
unchanged (and raises nothing) when the caller is not the host. -/
theorem claim8_nonHostNoop (w : World) (selfId : String) (now : Nat)
    (phase : Phase) (payload : StatePayload) (patch : SettingsPatch)
    (pid : String) (shuffle : List Role → List Role) :
    setStateW false selfId now phase payload w = w ∧
    resetGameStateW false selfId now w = w ∧
    processVotesW false selfId now w = w ∧
    processMorningW false selfId now w = w ∧
    startGameW false selfId now shuffle w = w ∧
    updateSettingsW false patch w = w ∧
    kickPlayerW false pid w = w ∧
    transitionToVotingW false selfId now w = w ∧
    transitionToBreakW false selfId now w = w ∧
    transitionToNightW false selfId now w = w := by
  refine ⟨rfl, rfl, rfl, rfl, rfl, rfl, rfl, rfl, rfl, rfl⟩

/-- Versions written by a run of host `setState` calls count up one by
one from the stored version. -/
lemma writtenVersions_eq (selfId : String) (calls : List StateCall)
    (st : GameState) :
    writtenVersions selfId calls st = List.range' (st.version + 1) calls.length := by
  induction calls generalizing st with
  | nil => rfl
  | cons c rest ih =>
    simp [writtenVersions, setState, ih, List.range'_succ]

/-- C6: over any sequence of host `setState` calls the written `version`
values are pairwise strictly increasing (no repeats), and each single
call writes exactly the previous version plus one. -/
theorem claim6_versionMonotonic (selfId : String) (calls : List StateCall)
    (st : GameState) :
    List.Pairwise (· < ·) (writtenVersions selfId calls st) ∧
    (∀ (now : Nat) (phase : Phase) (payload : StatePayload) (s : GameState),
      (setState true selfId now phase payload s).version = s.version + 1) := by
  constructor
  · rw [writtenVersions_eq]
    exact List.pairwise_lt_range' _ _
  · intro now phase payload s
    rfl

/-- C9: after a host `resetGameState`, the authoritative record is a full
overwrite at phase LOBBY and version 0 with no winner or victim fields,
every player is alive, unassigned, and unconfirmed, all four collections
are empty, the room is back to day 1 in the lobby, and the timer is gone. -/
theorem claim9_resetRoundTrip (w : World) (selfId : String) (now : Nat) :
    ((resetGameStateW true selfId now w).gameState.phase = Phase.LOBBY ∧
      (resetGameStateW true selfId now w).gameState.version = 0 ∧
      (resetGameStateW true selfId now w).gameState.winner = none ∧
      (resetGameStateW true selfId now w).gameState.victimId = none ∧
      (resetGameStateW true selfId now w).gameState.victimName = none ∧
      (resetGameStateW true selfId now w).gameState.victims = none ∧
      (resetGameStateW true selfId now w).gameState.result = none ∧
      (resetGameStateW true selfId now w).gameState.tiedPlayers = none ∧
      (resetGameStateW true selfId now w).gameState.voteCounts = none) ∧
    (∀ p ∈ (resetGameStateW true selfId now w).players,
      p.isAlive = true ∧ p.role = none ∧ p.roleReadConfirmed = false) ∧
    (resetGameStateW true selfId now w).votes = [] ∧
    (resetGameStateW true selfId now w).nightActions = [] ∧
    (resetGameStateW true selfId now w).deathLog = [] ∧
    (resetGameStateW true selfId now w).voteHistory = [] ∧
    (resetGameStateW true selfId now w).room.day = 1 ∧
    (resetGameStateW true selfId now w).room.status = RoomStatus.lobby ∧
    (resetGameStateW true selfId now w).timer = none := by
  refine ⟨⟨rfl, rfl, rfl, rfl, rfl, rfl, rfl, rfl, rfl⟩, ?_,
    rfl, rfl, rfl, rfl, rfl, rfl, rfl⟩
  intro p hp
  have hmem : p ∈ List.map
      (fun q => { q with isAlive := true, role := none, roleReadConfirmed := false })
      w.players := hp
  rw [List.mem_map] at hmem
  obtain ⟨q, _, rfl⟩ := hmem
  exact ⟨rfl, rfl, rfl⟩

/-- C9 witness: the reset applied to a concrete mid-game world. -/
theorem claim9_witness :
    ((resetGameStateW true "P1" 99 sampleWorld).gameState.phase = Phase.LOBBY ∧
      (resetGameStateW true "P1" 99 sampleWorld).gameState.version = 0 ∧
      (resetGameStateW true "P1" 99 sampleWorld).gameState.winner = none ∧
      (resetGameStateW true "P1" 99 sampleWorld).gameState.victimId = none ∧
      (resetGameStateW true "P1" 99 sampleWorld).gameState.victimName = none ∧
      (resetGameStateW true "P1" 99 sampleWorld).gameState.victims = none ∧
      (resetGameStateW true "P1" 99 sampleWorld).gameState.result = none ∧
      (resetGameStateW true "P1" 99 sampleWorld).gameState.tiedPlayers = none ∧
      (resetGameStateW true "P1" 99 sampleWorld).gameState.voteCounts = none) ∧
    (∀ p ∈ (resetGameStateW true "P1" 99 sampleWorld).players,
      p.isAlive = true ∧ p.role = none ∧ p.roleReadConfirmed = false) ∧
    (resetGameStateW true "P1" 99 sampleWorld).votes = [] ∧
    (resetGameStateW true "P1" 99 sampleWorld).nightActions = [] ∧
    (resetGameStateW true "P1" 99 sampleWorld).deathLog = [] ∧
    (resetGameStateW true "P1" 99 sampleWorld).voteHistory = [] ∧
    (resetGameStateW true "P1" 99 sampleWorld).room.day = 1 ∧
    (resetGameStateW true "P1" 99 sampleWorld).room.status = RoomStatus.lobby ∧
    (resetGameStateW true "P1" 99 sampleWorld).timer = none :=
  claim9_resetRoundTrip sampleWorld "P1" 99

lemma setStateW_phase (selfId : String) (now : Nat) (ph : Phase)
    (pl : StatePayload) (w : World) :
    (setStateW true selfId now ph pl w).gameState.phase = ph := rfl

lemma edAllSubmitted_setStateW (selfId : String) (now : Nat) (ph : Phase)
    (pl : StatePayload) (w : World) :
    edAllSubmitted (setStateW true selfId now ph pl w) = edAllSubmitted w := rfl

lemma processMorningW_phase (selfId : String) (now : Nat) (w : World) :
    (processMorningW true selfId now w).gameState.phase
      = Phase.MORNING_ANNOUNCEMENT := rfl

lemma impSubmitted_processMorningW (selfId : String) (now : Nat) (w : World) :
    impSubmitted (processMorningW true selfId now w) = impSubmitted w := rfl

lemma checkEDSubmittedW_idem (selfId selfId2 : String) (now now2 : Nat) (w : World) :
    (checkEDSubmittedW true selfId2 now2 (checkEDSubmittedW true selfId now w).1).1
      = (checkEDSubmittedW true selfId now w).1 := by
  by_cases hs : edAllSubmitted w = true
  · by_cases hp : w.gameState.phase = Phase.NIGHT_SPECIAL
    · simp [checkEDSubmittedW, hs, hp, edAllSubmitted_setStateW, setStateW_phase]
    · simp [checkEDSubmittedW, hs, hp]
  · simp [checkEDSubmittedW, hs]

lemma checkImpostorSubmittedW_idem (selfId selfId2 : String) (now now2 : Nat)
    (w : World) :
    (checkImpostorSubmittedW true selfId2 now2
        (checkImpostorSubmittedW true selfId now w).1).1
      = (checkImpostorSubmittedW true selfId now w).1 := by
  by_cases hs : impSubmitted w = true
  · by_cases hp : w.gameState.phase = Phase.NIGHT_IMPOSTOR
    · simp [checkImpostorSubmittedW, hs, hp, impSubmitted_processMorningW,
        processMorningW_phase]
    · simp [checkImpostorSubmittedW, hs, hp]
  · simp [checkImpostorSubmittedW, hs]

/-- C7 counterexample: `checkAllVoted` has no phase guard. On a world
where the one living player has voted, the first host call advances to
VOTE_RESULT; calling the check again immediately afterwards re-runs
`processVotes`, writing the authoritative record again (version bumps a
second time) and re-archiving the votes — the transition fires twice, so
not every all-submitted check re-reads the phase before transitioning. -/
theorem claim7_counterexample :
    (checkAllVotedW true "P" 100 cexVoteWorld).1.gameState.phase
      = Phase.VOTE_RESULT ∧
    (checkAllVotedW true "P" 101
        (checkAllVotedW true "P" 100 cexVoteWorld).1).1.gameState.version
      = (checkAllVotedW true "P" 100 cexVoteWorld).1.gameState.version + 1 ∧
    (checkAllVotedW true "P" 101
        (checkAllVotedW true "P" 100 cexVoteWorld).1).1.voteHistory.length
      = (checkAllVotedW true "P" 100 cexVoteWorld).1.voteHistory.length + 1 := by
  exact ⟨rfl, rfl, rfl⟩

/-- C7 (amended): the night aggregation checks (`checkEDSubmitted`,
`checkImpostorSubmitted`) re-read the current phase before transitioning
and are idempotent — a second host call right after the first changes
nothing; the all-voted and all-read checks carry no such guard and can
re-trigger their transition (see the counterexample). -/
theorem claim7_nightChecksIdempotent (w : World) (selfId selfId2 : String)
    (now now2 : Nat) :
    (checkEDSubmittedW true selfId2 now2 (checkEDSubmittedW true selfId now w).1).1
      = (checkEDSubmittedW true selfId now w).1 ∧
    (checkImpostorSubmittedW true selfId2 now2
        (checkImpostorSubmittedW true selfId now w).1).1
      = (checkImpostorSubmittedW true selfId now w).1 :=
  ⟨checkEDSubmittedW_idem selfId selfId2 now now2 w,
   checkImpostorSubmittedW_idem selfId selfId2 now now2 w⟩

lemma expandRoles_foldl (rs : List (Role × Nat)) (acc : List Role) :
    rs.foldl (fun a rc => a ++ List.replicate rc.2 rc.1) acc
      = acc ++ expandRoles rs := by
  induction rs generalizing acc with
  | nil => simp [expandRoles]
  | cons rc rest ih =>
    have hexp : expandRoles (rc :: rest)
        = List.replicate rc.2 rc.1 ++ expandRoles rest := by
      simp only [expandRoles, List.foldl_cons, List.nil_append]
      exact ih (List.replicate rc.2 rc.1)
    simp only [List.foldl_cons, hexp]
    rw [ih (acc ++ List.replicate rc.2 rc.1), List.append_assoc]

lemma expandRoles_length (rs : List (Role × Nat)) :
    (expandRoles rs).length = sumRoleCounts rs := by
  induction rs with
  | nil => rfl
  | cons rc rest ih =>
    have hexp : expandRoles (rc :: rest)
        = List.replicate rc.2 rc.1 ++ expandRoles rest := by
      simp only [expandRoles, List.foldl_cons, List.nil_append]
      exact expandRoles_foldl rest (List.replicate rc.2 rc.1)
    simp [hexp, ih, sumRoleCounts]

/-- C4: `assignRoles` always returns exactly `playerCount` roles; an
undershoot is padded with `citizen`, an overshoot is truncated to
`playerCount`, and when the configured counts sum to `playerCount` the
result is exactly the expansion of the role counts. -/
theorem claim4_assignRoles (n : Nat) (rs : List (Role × Nat)) :
    (assignRoles n rs).length = n ∧
    (sumRoleCounts rs ≤ n →
      assignRoles n rs
        = expandRoles rs ++ List.replicate (n - sumRoleCounts rs) Role.citizen) ∧
    (n ≤ sumRoleCounts rs → assignRoles n rs = (expandRoles rs).take n) ∧
    (sumRoleCounts rs = n → assignRoles n rs = expandRoles rs) := by
  have hlen := expandRoles_length rs
  refine ⟨?_, ?_, ?_, ?_⟩
  · simp only [assignRoles]
    rw [List.length_take, List.length_append, List.length_replicate, hlen]
    omega
  · intro h
    simp only [assignRoles]
    rw [hlen, List.take_of_length_le]
    rw [List.length_append, List.length_replicate, hlen]
    omega
  · intro h
    simp only [assignRoles]
    have h0 : n - (expandRoles rs).length = 0 := by omega
    rw [h0]
    simp
  · intro h
    simp only [assignRoles]
    have h0 : n - (expandRoles rs).length = 0 := by omega
    rw [h0]
    simp only [List.replicate_zero, List.append_nil]
    exact List.take_of_length_le (by omega)

/-- C4 witness: an exact configuration (1 impostor, 2 citizens for 3
players) yields exactly its expansion. -/
theorem claim4_witness :
    (assignRoles 3 [(Role.impostor, 1), (Role.citizen, 2)]).length = 3 ∧
    (sumRoleCounts [(Role.impostor, 1), (Role.citizen, 2)] = 3 →
      assignRoles 3 [(Role.impostor, 1), (Role.citizen, 2)]
        = expandRoles [(Role.impostor, 1), (Role.citizen, 2)]) ∧
    assignRoles 3 [(Role.impostor, 1), (Role.citizen, 2)]
      = [Role.impostor, Role.citizen, Role.citizen] :=
  ⟨(claim4_assignRoles 3 [(Role.impostor, 1), (Role.citizen, 2)]).1,
   (claim4_assignRoles 3 [(Role.impostor, 1), (Role.citizen, 2)]).2.2.2,
   by decide⟩

lemma bumpCount_keys (acc : List (String × Nat)) (t : String) :
    (bumpCount acc t).map Prod.fst =
      if t ∈ acc.map Prod.fst then acc.map Prod.fst
      else acc.map Prod.fst ++ [t] := by
  induction acc with
  | nil => simp [bumpCount]
  | cons e rest ih =>
    obtain ⟨k, c⟩ := e
    by_cases hk : k = t
    · simp [bumpCount, hk]
    · by_cases ht : t ∈ rest.map Prod.fst
      · simp [bumpCount, hk, ih, ht, Ne.symm hk]
      · simp [bumpCount, hk, ih, ht, Ne.symm hk]

lemma cntOf_bump (acc : List (String × Nat)) (t k : String) :
    cntOf (bumpCount acc t) k = cntOf acc k + if k = t then 1 else 0 := by
  induction acc with
  | nil =>
    by_cases hk : k = t
    · simp [cntOf, bumpCount, hk]
    · simp [cntOf, bumpCount, hk, Ne.symm hk]
  | cons e rest ih =>
    obtain ⟨a, c⟩ := e
    by_cases hat : a = t
    · subst hat
      by_cases hk : k = a
      · simp [cntOf, bumpCount, hk]
      · simp [cntOf, bumpCount, hk, Ne.symm hk]
    · by_cases hak : a = k
      · have hkt : ¬ k = t := fun h => hat (hak.trans h)
        simp [cntOf, bumpCount, hat, hak, hkt]
      · simp [cntOf, bumpCount, hat, hak, ih]

lemma voteCount_cnt_foldl (votes : List Vote) (acc : List (String × Nat)) (k : String) :
    cntOf (votes.foldl (fun a v => bumpCount a v.targetId) acc) k
      = cntOf acc k + (votes.map Vote.targetId).count k := by
  induction votes generalizing acc with
  | nil => simp
  | cons v rest ih =>
    simp only [List.foldl_cons, List.map_cons]
    rw [ih, cntOf_bump, List.count_cons]
    by_cases hk : k = v.targetId
    · simp [hk]
      omega
    · have hk2 : ¬ v.targetId = k := fun h => hk h.symm
      simp [hk, hk2]

lemma cntOf_voteCount (votes : List Vote) (k : String) :
    cntOf (voteCount votes) k = countFor votes k := by
  have h := voteCount_cnt_foldl votes [] k
  simpa [voteCount, countFor, voteTargets, cntOf] using h

lemma voteCount_keys_foldl (votes : List Vote) (acc : List (String × Nat)) :
    (votes.foldl (fun a v => bumpCount a v.targetId) acc).map Prod.fst
      = (votes.map Vote.targetId).foldl
          (fun a t => if t ∈ a then a else a ++ [t]) (acc.map Prod.fst) := by
  induction votes generalizing acc with
  | nil => simp
  | cons v rest ih =>
    simp only [List.foldl_cons, List.map_cons]
    rw [ih, bumpCount_keys]

lemma voteCount_keys (votes : List Vote) :
    (voteCount votes).map Prod.fst = firstOccur (voteTargets votes) := by
  have h := voteCount_keys_foldl votes []
  simpa [voteCount, firstOccur, voteTargets] using h

lemma firstOccur_foldl_nodup (ts : List String) (acc : List String)
    (h : acc.Nodup) :
    (ts.foldl (fun a t => if t ∈ a then a else a ++ [t]) acc).Nodup := by
  induction ts generalizing acc with
  | nil => simpa
  | cons t rest ih =>
    simp only [List.foldl_cons]
    by_cases ht : t ∈ acc
    · rw [if_pos ht]
      exact ih acc h
    · rw [if_neg ht]
      refine ih _ ?_
      simp [List.nodup_append, h, ht]

lemma voteCount_keys_nodup (votes : List Vote) :
    ((voteCount votes).map Prod.fst).Nodup := by
  rw [voteCount_keys]
  exact firstOccur_foldl_nodup _ [] List.nodup_nil

lemma cntOf_mem (entries : List (String × Nat)) (e : String × Nat)
    (he : e ∈ entries) (hnd : (entries.map Prod.fst).Nodup) :
    cntOf entries e.1 = e.2 := by
  induction entries with
  | nil => cases he
  | cons a rest ih =>
    rcases List.mem_cons.mp he with rfl | hmem
    · simp [cntOf]
    · have hkey : e.1 ∈ rest.map Prod.fst := List.mem_map.mpr ⟨e, hmem, rfl⟩
      have hnot : a.1 ∉ rest.map Prod.fst := (List.nodup_cons.mp hnd).1
      have hne : ¬ a.1 = e.1 := fun hcontra => hnot (hcontra ▸ hkey)
      rw [cntOf, if_neg hne]
      exact ih hmem (List.nodup_cons.mp hnd).2

lemma voteCount_val (votes : List Vote) :
    ∀ e ∈ voteCount votes, e.2 = countFor votes e.1 := by
  intro e he
  rw [← cntOf_voteCount]
  exact (cntOf_mem _ e he (voteCount_keys_nodup votes)).symm

lemma le_foldl_max (l : List Nat) (b : Nat) : b ≤ l.foldl max b := by
  induction l generalizing b with
  | nil => simp
  | cons a rest ih => exact le_trans (Nat.le_max_left b a) (ih (max b a))

lemma mem_le_foldl_max (l : List Nat) (b : Nat) :
    ∀ x ∈ l, x ≤ l.foldl max b := by
  induction l generalizing b with
  | nil =>
    intro x hx
    cases hx
  | cons a rest ih =>
    intro x hx
    rcases List.mem_cons.mp hx with rfl | hmem
    · exact le_trans (Nat.le_max_right b x) (le_foldl_max rest _)
    · exact ih (max b a) x hmem

lemma maxEntryVal_append (l : List (String × Nat)) (e : String × Nat) :
    maxEntryVal (l ++ [e]) = max (maxEntryVal l) e.2 := by
  simp [maxEntryVal, maxNatList, List.foldl_append]

lemma mem_le_maxEntryVal (l : List (String × Nat)) (e : String × Nat)
    (he : e ∈ l) : e.2 ≤ maxEntryVal l :=
  mem_le_foldl_max _ 0 e.2 (List.mem_map.mpr ⟨e, he, rfl⟩)

lemma plurality_spec (entries : List (String × Nat)) :
    plurality entries =
      (maxEntryVal entries,
       (entries.filter (fun e => decide (e.2 = maxEntryVal entries))).map
         Prod.fst) := by
  induction entries using List.reverseRecOn with
  | nil => rfl
  | append_singleton l e ih =>
    have hstep : plurality (l ++ [e]) =
        (if e.2 > (plurality l).1 then (e.2, [e.1])
         else if e.2 = (plurality l).1 then
           ((plurality l).1, (plurality l).2 ++ [e.1])
         else plurality l) := by
      simp [plurality, List.foldl_append]
    rw [hstep, ih, maxEntryVal_append, List.filter_append]
    by_cases hgt : e.2 > maxEntryVal l
    · have hmax : max (maxEntryVal l) e.2 = e.2 := Nat.max_eq_right (le_of_lt hgt)
      rw [hmax]
      have hnil : l.filter (fun x => decide (x.2 = e.2)) = [] := by
        rw [List.filter_eq_nil_iff]
        intro x hx
        have := mem_le_maxEntryVal l x hx
        simp only [decide_eq_true_eq]
        omega
      simp [hgt, hnil]
    · by_cases heq : e.2 = maxEntryVal l
      · have hmax : max (maxEntryVal l) e.2 = maxEntryVal l := by omega
        rw [hmax]
        simp [hgt, heq]
      · have hlt : e.2 < maxEntryVal l := by omega
        have hmax : max (maxEntryVal l) e.2 = maxEntryVal l := by omega
        rw [hmax]
        simp [hgt, heq]

lemma filter_map_fst (entries : List (String × Nat)) (f : String → Nat) (M : Nat)
    (hval : ∀ e ∈ entries, e.2 = f e.1) :
    (entries.filter (fun e => decide (e.2 = M))).map Prod.fst
      = (entries.map Prod.fst).filter (fun k => decide (f k = M)) := by
  induction entries with
  | nil => rfl
  | cons a rest ih =>
    have ha : a.2 = f a.1 := hval a (List.mem_cons_self a rest)
    have hrest : ∀ e ∈ rest, e.2 = f e.1 :=
      fun e he => hval e (List.mem_cons_of_mem a he)
    by_cases h : a.2 = M
    · have hfa : f a.1 = M := ha ▸ h
      simp [List.filter_cons, h, hfa, ih hrest]
    · have hfa : ¬ f a.1 = M := fun hc => h (ha ▸ hc)
      simp [List.filter_cons, h, hfa, ih hrest]

lemma maxEntryVal_voteCount (votes : List Vote) :
    maxEntryVal (voteCount votes) = maxVoteCount votes := by
  have hsnd : (voteCount votes).map Prod.snd
      = ((voteCount votes).map Prod.fst).map (countFor votes) := by
    rw [List.map_map]
    exact List.map_congr_left (fun e he => voteCount_val votes e he)
  rw [maxEntryVal, hsnd, voteCount_keys]
  rfl

/-- C3: for every vote set the tally reports a tie over exactly the
targets achieving the plurality count when more than one does, and
otherwise kills the unique plurality target; on the specification's
examples `{A:2, B:2, C:1}` ties `{A, B}` and `{A:3, B:1}` kills A. -/
theorem claim3_voteTally :
    (∀ votes : List Vote,
      processVotesTally votes =
        (if 1 < (pluralityTargets votes).length then
          VoteOutcome.tie (pluralityTargets votes)
        else VoteOutcome.killed (pluralityTargets votes).head?)) ∧
    processVotesTally votesTied = VoteOutcome.tie ["A", "B"] ∧
    processVotesTally votesClear = VoteOutcome.killed (some "A") := by
  refine ⟨?_, by decide, by decide⟩
  intro votes
  have hfilt : ((voteCount votes).filter
      (fun e => decide (e.2 = maxEntryVal (voteCount votes)))).map Prod.fst
      = pluralityTargets votes := by
    rw [maxEntryVal_voteCount,
      filter_map_fst _ (countFor votes) _ (voteCount_val votes),
      voteCount_keys]
    rfl
  simp only [processVotesTally]
  rw [plurality_spec, hfilt]

lemma engineerVictims_foldl (acts : List NightAction) (ps : List Player)
    (acc : List VictimEntry) :
    acts.foldl
      (fun vs a =>
        if engHit ps a then vs ++ [⟨a.targetId, Cause.bug_death⟩] else vs)
      acc
      = acc ++ engineerVictimsSpec acts ps := by
  induction acts generalizing acc with
  | nil => simp [engineerVictimsSpec]
  | cons a rest ih =>
    simp only [List.foldl_cons]
    by_cases h : engHit ps a = true
    · rw [if_pos h, ih]
      simp [engineerVictimsSpec, List.filter_cons, h]
    · rw [if_neg h, ih]
      simp [engineerVictimsSpec, List.filter_cons, h]

lemma engineerVictims_eq (acts : List NightAction) (ps : List Player) :
    engineerVictims acts ps = engineerVictimsSpec acts ps := by
  have h := engineerVictims_foldl acts ps []
  simpa [engineerVictims] using h

lemma minTime?_foldl_some (l : List Nat) (x : Nat) :
    l.foldl
      (fun acc t =>
        match acc with
        | none => some t
        | some m => some (min m t))
      (some x)
      = some (l.foldl min x) := by
  induction l generalizing x with
  | nil => rfl
  | cons a rest ih =>
    simp only [List.foldl_cons]
    exact ih (min x a)

lemma minTime?_cons (x : Nat) (xs : List Nat) :
    minTime? (x :: xs) = some (xs.foldl min x) := by
  simp only [minTime?, List.foldl_cons]
  exact minTime?_foldl_some xs x

lemma minTime?_eq_none (l : List Nat) : minTime? l = none ↔ l = [] := by
  cases l with
  | nil => simp [minTime?]
  | cons x xs => simp [minTime?_cons]

lemma foldl_min_le_self (l : List Nat) (x : Nat) : l.foldl min x ≤ x := by
  induction l generalizing x with
  | nil => simp
  | cons a rest ih => exact le_trans (ih (min x a)) (Nat.min_le_left x a)

lemma foldl_min_le_mem (l : List Nat) (x : Nat) :
    ∀ y ∈ l, l.foldl min x ≤ y := by
  induction l generalizing x with
  | nil =>
    intro y hy
    cases hy
  | cons a rest ih =>
    intro y hy
    rcases List.mem_cons.mp hy with rfl | hmem
    · exact le_trans (foldl_min_le_self rest (min x y)) (Nat.min_le_right x y)
    · exact ih (min x a) y hmem

lemma foldl_min_mem (l : List Nat) (x : Nat) :
    l.foldl min x = x ∨ l.foldl min x ∈ l := by
  induction l generalizing x with
  | nil => exact Or.inl rfl
  | cons a rest ih =>
    simp only [List.foldl_cons]
    rcases ih (min x a) with h | h
    · rcases le_total x a with hxa | hax
      · exact Or.inl (by rw [h, Nat.min_eq_left hxa])
      · refine Or.inr ?_
        rw [h, Nat.min_eq_right hax]
        exact List.mem_cons_self a rest
    · exact Or.inr (List.mem_cons_of_mem a h)

lemma minTime?_mem (l : List Nat) (m : Nat) (h : minTime? l = some m) : m ∈ l := by
  cases l with
  | nil => cases h
  | cons x xs =>
    rw [minTime?_cons] at h
    obtain rfl : xs.foldl min x = m := Option.some.injEq _ _ ▸ h.symm ▸ rfl
    rcases foldl_min_mem xs x with h2 | h2
    · rw [h2]
      exact List.mem_cons_self x xs
    · exact List.mem_cons_of_mem x h2

lemma minTime?_le (l : List Nat) (m : Nat) (h : minTime? l = some m) :
    ∀ y ∈ l, m ≤ y := by
  cases l with
  | nil => cases h
  | cons x xs =>
    rw [minTime?_cons] at h
    obtain rfl : xs.foldl min x = m := Option.some.injEq _ _ ▸ h.symm ▸ rfl
    intro y hy
    rcases List.mem_cons.mp hy with rfl | hmem
    · exact foldl_min_le_self xs y
    · exact foldl_min_le_mem xs x y hmem

lemma minTime?_append_singleton (l : List Nat) (m x : Nat)
    (h : minTime? l = some m) :
    minTime? (l ++ [x]) = some (min m x) := by
  cases l with
  | nil => cases h
  | cons y ys =>
    rw [minTime?_cons] at h
    have hfold : ys.foldl min y = m := by
      exact Option.some_injective _ h
    rw [List.cons_append, minTime?_cons, List.foldl_append, hfold]
    rfl

lemma impostorActs_append (l : List NightAction) (a : NightAction) :
    impostorActs (l ++ [a]) =
      impostorActs l ++ (if a.type = Role.impostor then [a] else []) := by
  by_cases h : a.type = Role.impostor
  · simp [impostorActs, List.filter_append, h]
  · simp [impostorActs, List.filter_append, h]

lemma impostorTargetSel_spec (acts : List NightAction)
    (hpos : ∀ x ∈ acts, x.type = Role.impostor → 0 < x.submittedAt) :
    impostorTargetSel acts = earliestImpostorSel acts := by
  induction acts using List.reverseRecOn with
  | nil => rfl
  | append_singleton l a ih =>
    have hposl : ∀ x ∈ l, x.type = Role.impostor → 0 < x.submittedAt :=
      fun x hx => hpos x (List.mem_append_left _ hx)
    have hsel : impostorTargetSel (l ++ [a]) =
        (if a.type = Role.impostor then
          match impostorTargetSel l with
          | none => some (a.submittedAt, a.targetId)
          | some (t, tgt) =>
            if t = 0 ∨ a.submittedAt < t then some (a.submittedAt, a.targetId)
            else some (t, tgt)
        else impostorTargetSel l) := by
      simp only [impostorTargetSel, List.foldl_append, List.foldl_cons,
        List.foldl_nil]
    by_cases hty : a.type = Role.impostor
    · rcases hmin : minTime? ((impostorActs l).map NightAction.submittedAt) with
        _ | m
      · -- no impostor action in the prefix
        have hnil : impostorActs l = [] := by
          have := (minTime?_eq_none _).mp hmin
          exact List.map_eq_nil_iff.mp this
        have hLl : impostorTargetSel l = none := by
          rw [ih hposl]
          simp [earliestImpostorSel, hmin]
        have himps : impostorActs (l ++ [a]) = [a] := by
          rw [impostorActs_append, hnil, if_pos hty]
          rfl
        rw [hsel, if_pos hty, hLl]
        simp [earliestImpostorSel, himps, minTime?_cons]
      · -- the prefix already selected a pair (m, tgt)
        have hmemm : m ∈ (impostorActs l).map NightAction.submittedAt :=
          minTime?_mem _ m hmin
        have h0 : 0 < m := by
          obtain ⟨x, hx, hxm⟩ := List.mem_map.mp hmemm
          have hxl : x ∈ l := List.mem_of_mem_filter hx
          have hximp : x.type = Role.impostor := by
            have := List.of_mem_filter hx
            simpa using this
          rw [← hxm]
          exact hposl x hxl hximp
        have hfindsome : ((impostorActs l).find?
            (fun x => decide (x.submittedAt = m))).isSome = true := by
          rw [List.find?_isSome]
          obtain ⟨x, hx, hxm⟩ := List.mem_map.mp hmemm
          exact ⟨x, hx, by simp [hxm]⟩
        obtain ⟨a0, ha0⟩ := Option.isSome_iff_exists.mp hfindsome
        have hLl : impostorTargetSel l = some (m, a0.targetId) := by
          rw [ih hposl]
          simp [earliestImpostorSel, hmin, ha0]
        have himps : impostorActs (l ++ [a]) = impostorActs l ++ [a] := by
          rw [impostorActs_append, if_pos hty]
        have htimes : (impostorActs (l ++ [a])).map NightAction.submittedAt
            = (impostorActs l).map NightAction.submittedAt ++ [a.submittedAt] := by
          rw [himps]
          simp
        have hmin' : minTime?
            ((impostorActs (l ++ [a])).map NightAction.submittedAt)
            = some (min m a.submittedAt) := by
          rw [htimes]
          exact minTime?_append_singleton _ m _ hmin
        rw [hsel, if_pos hty, hLl]
        show (if m = 0 ∨ a.submittedAt < m then some (a.submittedAt, a.targetId)
          else some (m, a0.targetId)) = earliestImpostorSel (l ++ [a])
        by_cases hlt : a.submittedAt < m
        · rw [if_pos (Or.inr hlt)]
          have hminv : min m a.submittedAt = a.submittedAt :=
            Nat.min_eq_right (le_of_lt hlt)
          have hfind' : (impostorActs (l ++ [a])).find?
              (fun x => decide (x.submittedAt = a.submittedAt)) = some a := by
            rw [himps, List.find?_append]
            have hnone : (impostorActs l).find?
                (fun x => decide (x.submittedAt = a.submittedAt)) = none := by
              rw [List.find?_eq_none]
              intro x hx
              have hle : m ≤ x.submittedAt :=
                minTime?_le _ m hmin _ (List.mem_map_of_mem _ hx)
              simp only [decide_eq_true_eq]
              omega
            rw [hnone]
            simp
          simp [earliestImpostorSel, hmin', hminv, hfind']
        · have hcond : ¬ (m = 0 ∨ a.submittedAt < m) := by omega
          rw [if_neg hcond]
          have hminv : min m a.submittedAt = m :=
            Nat.min_eq_left (Nat.le_of_not_lt hlt)
          have hfind' : (impostorActs (l ++ [a])).find?
              (fun x => decide (x.submittedAt = m)) = some a0 := by
            rw [himps, List.find?_append, ha0]
            rfl
          simp [earliestImpostorSel, hmin', hminv, hfind']
    · have himps : impostorActs (l ++ [a]) = impostorActs l := by
        rw [impostorActs_append, if_neg hty]
        simp
      rw [hsel, if_neg hty, ih hposl]
      simp [earliestImpostorSel, himps]

lemma impostorTargetId_eq (acts : List NightAction)
    (hpos : ∀ x ∈ acts, x.type = Role.impostor → 0 < x.submittedAt) :
    impostorTargetId acts = earliestImpostorTarget acts := by
  rw [impostorTargetId, impostorTargetSel_spec acts hpos]
  unfold earliestImpostorSel earliestImpostorTarget
  cases minTime? ((impostorActs acts).map NightAction.submittedAt) with
  | none => rfl
  | some m =>
    show Option.map Prod.snd
        (Option.map (fun a => (m, a.targetId))
          ((impostorActs acts).find? (fun a => decide (a.submittedAt = m))))
      = Option.map NightAction.targetId
          ((impostorActs acts).find? (fun a => decide (a.submittedAt = m)))
    cases (impostorActs acts).find? (fun a => decide (a.submittedAt = m)) with
    | none => rfl
    | some a0 => rfl

/-- C5 counterexample: with two impostor actions whose earlier submission
carries timestamp 0, the falsy check `!earliestTime` lets the later
action (timestamp 5, target B) overwrite the stored earliest pick, so the
code kills B although the action with the earliest `submittedAt` targets
A — the binding target is not always the earliest submission. -/
theorem claim5_counterexample :
    computeVictims cexNightActs cexNightRoster = [⟨"B", Cause.impostor⟩] ∧
    earliestImpostorTarget cexNightActs = some "A" := by
  exact ⟨rfl, rfl⟩

/-- C5 (amended): provided every impostor action's `submittedAt` is
positive (a stored earliest time of 0 is falsy in the selection loop and
would be overwritten), night resolution picks as binding target the first
impostor action achieving the earliest `submittedAt`, and the victim list
is exactly the engineer-on-living-bug victims (cause `bug_death`, in
action order) followed by the binding target with cause `impostor` iff it
is alive, not already a victim, not protected by a fallen-angel action,
and not a bug; protection and bug immunity produce no entry. -/
theorem claim5_nightResolution (acts : List NightAction) (ps : List Player)
    (hpos : ∀ x ∈ acts, x.type = Role.impostor → 0 < x.submittedAt) :
    impostorTargetId acts = earliestImpostorTarget acts ∧
    computeVictims acts ps
      = engineerVictimsSpec acts ps ++ impostorVictimSpec acts ps := by
  refine ⟨impostorTargetId_eq acts hpos, ?_⟩
  have hbridge : ∀ tid : String,
      (((engineerVictimsSpec acts ps).find?
        (fun v => decide (v.id = tid))).isNone = true)
      ↔ (∀ v ∈ engineerVictimsSpec acts ps, v.id ≠ tid) := by
    intro tid
    rw [Option.isNone_iff_eq_none, List.find?_eq_none]
    simp
  simp only [computeVictims]
  rw [engineerVictims_eq, impostorTargetId_eq acts hpos]
  unfold impostorVictimSpec
  cases ht : earliestImpostorTarget acts with
  | none => simp
  | some tid =>
    cases hf : findPlayer ps tid with
    | none => simp [hf]
    | some target =>
      by_cases halive : target.isAlive = true
      · by_cases hvic : ∀ v ∈ engineerVictimsSpec acts ps, v.id ≠ tid
        · have hnone : ((engineerVictimsSpec acts ps).find?
              (fun v => decide (v.id = tid))).isNone = true :=
            (hbridge tid).mpr hvic
          by_cases hprot : protectedBy acts tid = true
          · simp [hf, halive, hnone, hvic, hprot]
          · by_cases hbug : target.role = some Role.bug
            · simp [hf, halive, hnone, hvic, hprot, hbug]
            · simp only [hf, halive, hnone, hvic, hprot, hbug]
              simp [hf, halive, hnone, hprot, hbug]
              rw [if_pos hvic]
        · have hnone : ((engineerVictimsSpec acts ps).find?
              (fun v => decide (v.id = tid))).isNone = false := by
            rw [Bool.eq_false_iff]
            exact fun h => hvic ((hbridge tid).mp h)
          simp [hf, halive, hnone, hvic]
      · simp [hf, halive]

/-- C5 witness: a night with an engineer hit on a living bug and an
impostor kill of an unprotected living citizen produces both victims,
with causes `bug_death` then `impostor`. -/
theorem claim5_witness :
    (∀ x ∈ goodNightActs, x.type = Role.impostor → 0 < x.submittedAt) ∧
    (impostorTargetId goodNightActs = earliestImpostorTarget goodNightActs ∧
      computeVictims goodNightActs goodNightRoster
        = engineerVictimsSpec goodNightActs goodNightRoster
          ++ impostorVictimSpec goodNightActs goodNightRoster) ∧
    computeVictims goodNightActs goodNightRoster
      = [⟨"B", Cause.bug_death⟩, ⟨"C", Cause.impostor⟩] :=
  ⟨by decide,
   claim5_nightResolution goodNightActs goodNightRoster (by decide),
   by decide⟩

end Gnosia

